import Mathlib

/-!
# Verification of pipewire-rs core mechanisms

A shallow embedding of the object-lifetime and event-subscription framework
of the `pipewire-rs` repository (crates `libspa` and `pipewire`), together
with proofs about:

* the tri-state `SpaResult` return-code convention (`libspa/src/lib.rs`),
* the foreign dictionary view and its iterators (`libspa/src/dict.rs`),
* intrusive-list hook removal (`libspa/src/hook.rs`, `libspa/src/list.rs`)
  and listener teardown (`pipewire/src/core_.rs`),
* listener registration and event-table population (`pipewire/src/core_.rs`),
* handle teardown via reference counting (`libspa/src/lib.rs`),
* typed registry binding (`pipewire/src/registry.rs`).

Machine integers are modelled as bit patterns: an `i32` is a `Nat` below
`2^32`, interpreted through `i32ToInt` (two's complement); a `usize` cast
wraps modulo `2^64`.  Rust panics are modelled by `Option`/`Except`
results (`none` = panic).
-/

namespace Spa

/-! ## i32 bit patterns -/

/-- Interpret a 32-bit pattern (a `Nat < 2^32`) as a signed `i32` value. -/
def i32ToInt (w : Nat) : Int :=
  if w < 2 ^ 31 then (w : Int) else (w : Int) - 2 ^ 32

/-- The bit pattern of `-w` for an `i32` bit pattern `w` (wrapping negation). -/
def neg32 (w : Nat) : Nat := (2 ^ 32 - w) % 2 ^ 32

/-! ## SpaResult (libspa/src/lib.rs)

`pub struct SpaResult(i32)` with the constants

```rust
const SPA_ASYNC_BIT: i32 = 1 << 30; // last bit before sign.
const SPA_VAL_MASK: i32 = SPA_ASYNC_BIT - 1;
```

The i32 bit pattern of `!SPA_VAL_MASK` is `0xC0000000` (bits 30 and 31).
-/

def SPA_ASYNC_BIT : Nat := 1 <<< 30

def SPA_VAL_MASK : Nat := SPA_ASYNC_BIT - 1

/-- Bit pattern of the i32 expression `!SPA_VAL_MASK` (bits 30 and 31 set). -/
def NOT_VAL_MASK : Nat := 0xC0000000

structure SpaResult where
  val : Nat
  deriving Repr, DecidableEq

namespace SpaResult

/-- `pub fn from_raw(res: i32) -> Self` -/
def from_raw (res : Nat) : SpaResult := ⟨res⟩

/-- `pub fn into_raw(self) -> i32` -/
def into_raw (r : SpaResult) : Nat := r.val

/-- `pub fn new_ok(val: i32) -> Self`; panics (`none`) when
`(val & !SPA_VAL_MASK) != 0`. -/
def new_ok (val : Nat) : Option SpaResult :=
  if val &&& NOT_VAL_MASK ≠ 0 then none else some ⟨val⟩

/-- `pub fn new_async(seq: i32) -> Self`; panics (`none`) when
`(seq & !SPA_VAL_MASK) != 0`, otherwise returns `seq | SPA_ASYNC_BIT`. -/
def new_async (seq : Nat) : Option SpaResult :=
  if seq &&& NOT_VAL_MASK ≠ 0 then none else some ⟨seq ||| SPA_ASYNC_BIT⟩

/-- `pub fn new_err(code: i32) -> Self`; panics (`none`) when `code <= 0`,
otherwise returns `-code`. -/
def new_err (code : Nat) : Option SpaResult :=
  if i32ToInt code ≤ 0 then none else some ⟨neg32 code⟩

/-- `pub fn unwrap_ok(self) -> i32`; panics unless the result is a
synchronous success. -/
def unwrap_ok (r : SpaResult) : Option Nat :=
  if r.val &&& NOT_VAL_MASK ≠ 0 then none else some r.val

/-- `pub fn unwrap_async(self) -> i32`; panics unless the async bit (and not
the sign bit) is set, and returns `self.0 & SPA_VAL_MASK`. -/
def unwrap_async (r : SpaResult) : Option Nat :=
  if r.val &&& NOT_VAL_MASK ≠ SPA_ASYNC_BIT then none else some (r.val &&& SPA_VAL_MASK)

/-- `pub fn unwrap_error(self) -> io::Error`; panics when `self.0 >= 0`,
otherwise builds an OS error from `-self.0`.  We return the raw OS error
code (the bit pattern of `-self.0`). -/
def unwrap_error (r : SpaResult) : Option Nat :=
  if 0 ≤ i32ToInt r.val then none else some (neg32 r.val)

/-- `pub fn is_ok(self) -> bool`: `self.0 & !SPA_VAL_MASK == 0`. -/
def is_ok (r : SpaResult) : Bool := r.val &&& NOT_VAL_MASK == 0

/-- `pub fn is_async(self) -> bool`: `self.0 & !SPA_VAL_MASK == SPA_ASYNC_BIT`. -/
def is_async (r : SpaResult) : Bool := r.val &&& NOT_VAL_MASK == SPA_ASYNC_BIT

/-- `pub fn is_err(self) -> bool`: `self.0 < 0`. -/
def is_err (r : SpaResult) : Bool := decide (i32ToInt r.val < 0)

/-- `pub fn into_sync_result(self) -> io::Result<i32>`; panics (`none`) when
the result is asynchronous; otherwise `Ok(self.0)` for non-negative values
and an OS error built from `-self.0` for negative ones. -/
def into_sync_result (r : SpaResult) : Option (Except Nat Nat) :=
  if r.is_async then none
  else if 0 ≤ i32ToInt r.val then some (.ok r.val)
  else some (.error (neg32 r.val))

/-- `pub fn into_async_result(self) -> io::Result<i32>`; panics (`none`) when
the result is a synchronous success. -/
def into_async_result (r : SpaResult) : Option (Except Nat Nat) :=
  if r.is_ok then none
  else if 0 ≤ i32ToInt r.val then some (.ok (r.val &&& SPA_VAL_MASK))
  else some (.error (neg32 r.val))

end SpaResult

/-! ## ForeignDict (libspa/src/dict.rs)

A `spa_dict` is a non-owning view of an externally owned array of
key/value C-string pairs.  We model C strings as byte lists (the bytes
before the terminating NUL), pointers into the item array as indices, and
a NULL `items` pointer as `none`. -/

/-- A C string: the byte sequence before the terminating NUL. -/
abbrev CStr := List Nat

/-- One `spa_dict_item`: a `(key, value)` pair of C strings. -/
abbrev DictItem := CStr × CStr

/-- The raw `spa_dict` struct: `flags`, `n_items` and the `items` pointer
(`none` models a NULL pointer, `some arr` a pointer to the array `arr`). -/
structure spa_dict where
  flags : Nat
  n_items : Nat
  items : Option (List DictItem)

/-- Is a byte a UTF-8 continuation byte (`0x80..=0xBF`)? -/
def utf8Cont (b : Nat) : Bool := 0x80 ≤ b && b ≤ 0xBF

/-- UTF-8 validity of a byte sequence, exactly the condition under which
Rust's `CStr::to_str` succeeds. -/
def utf8Valid : List Nat → Bool
  | [] => true
  | b :: rest =>
    if b ≤ 0x7F then utf8Valid rest
    else if 0xC2 ≤ b && b ≤ 0xDF then
      match rest with
      | b1 :: rest2 => utf8Cont b1 && utf8Valid rest2
      | [] => false
    else if b = 0xE0 then
      match rest with
      | b1 :: b2 :: rest3 =>
        (0xA0 ≤ b1 && b1 ≤ 0xBF) && utf8Cont b2 && utf8Valid rest3
      | _ => false
    else if (0xE1 ≤ b && b ≤ 0xEC) || b = 0xEE || b = 0xEF then
      match rest with
      | b1 :: b2 :: rest3 => utf8Cont b1 && utf8Cont b2 && utf8Valid rest3
      | _ => false
    else if b = 0xED then
      match rest with
      | b1 :: b2 :: rest3 =>
        (0x80 ≤ b1 && b1 ≤ 0x9F) && utf8Cont b2 && utf8Valid rest3
      | _ => false
    else if b = 0xF0 then
      match rest with
      | b1 :: b2 :: b3 :: rest4 =>
        (0x90 ≤ b1 && b1 ≤ 0xBF) && utf8Cont b2 && utf8Cont b3 && utf8Valid rest4
      | _ => false
    else if 0xF1 ≤ b && b ≤ 0xF3 then
      match rest with
      | b1 :: b2 :: b3 :: rest4 =>
        utf8Cont b1 && utf8Cont b2 && utf8Cont b3 && utf8Valid rest4
      | _ => false
    else if b = 0xF4 then
      match rest with
      | b1 :: b2 :: b3 :: rest4 =>
        (0x80 ≤ b1 && b1 ≤ 0x8F) && utf8Cont b2 && utf8Cont b3 && utf8Valid rest4
      | _ => false
    else false

/-- `CStr::to_str`: succeeds (with the same bytes viewed as a `&str`)
exactly when the bytes are valid UTF-8. -/
def CStr.to_str (c : CStr) : Option CStr :=
  if utf8Valid c then some c else none

/-- The closure of `Iter::next`'s `find_map`:
`k.to_str().ok().zip(v.to_str().ok())`. -/
def decode_item : DictItem → Option DictItem
  | (k, v) =>
    match k.to_str, v.to_str with
    | some ks, some vs => some (ks, vs)
    | _, _ => none

/-- `CIter`: the raw iterator state, a `next` pointer and a one-past-the-end
pointer into the item array.  `base` is the array the pointers point into
(`none` models NULL). -/
structure CIter where
  base : Option (List DictItem)
  next : Nat
  /-- Points to the first element outside of the allocated area. -/
  end_ : Nat

/-- `<CIter as Iterator>::next`: yield the item under `next` and advance,
while `next` is non-NULL and strictly below `end`. -/
def CIter.step (it : CIter) : Option (DictItem × CIter) :=
  match it.base with
  | none => none
  | some arr =>
    if it.next < it.end_ then
      some (arr.getD it.next ([], []), ⟨it.base, it.next + 1, it.end_⟩)
    else
      none

/-- `<CIter as Iterator>::size_hint`:
`self.next.offset_from(self.end) as usize`, i.e. the signed element
distance `next - end` wrapped to a `usize` (modulo `2^64`). -/
def CIter.size_hint (it : CIter) : Nat × Option Nat :=
  let bound := (((it.next : Int) - (it.end_ : Int)).emod (2 ^ 64)).toNat
  (bound, some bound)

/-- Drain the raw iterator: the full sequence of items yielded by repeated
calls to `CIter::next`. -/
def CIter.toList (it : CIter) : List DictItem :=
  match h : CIter.step it with
  | none => []
  | some (x, it2) => x :: CIter.toList it2
termination_by it.end_ - it.next
decreasing_by
  simp only [CIter.step] at h
  split at h
  · simp at h
  · split at h
    · simp only [Option.some.injEq, Prod.mk.injEq] at h
      obtain ⟨-, rfl⟩ := h
      simp only []
      omega
    · simp at h

/-- Advance the raw iterator by `k` calls to `next`. -/
def CIter.stepN : Nat → CIter → CIter
  | 0, it => it
  | k + 1, it =>
    match CIter.step it with
    | none => it
    | some (_, it2) => CIter.stepN k it2

/-- `Iter`: the UTF-8-filtering iterator, wrapping a raw `CIter`. -/
structure Iter where
  inner : CIter

/-- Drain the filtering iterator: `Iter::next` is
`self.inner.find_map(|(k, v)| k.to_str().ok().zip(v.to_str().ok()))`,
so draining it repeatedly skips undecodable items and yields decoded ones. -/
def Iter.toList (it : Iter) : List DictItem :=
  match h : CIter.step it.inner with
  | none => []
  | some (x, inner2) =>
    match decode_item x with
    | some kv => kv :: Iter.toList ⟨inner2⟩
    | none => Iter.toList ⟨inner2⟩
termination_by it.inner.end_ - it.inner.next
decreasing_by
  all_goals
    simp only [CIter.step] at h
    split at h
    · simp at h
    · split at h
      · simp only [Option.some.injEq, Prod.mk.injEq] at h
        obtain ⟨-, rfl⟩ := h
        simp only []
        omega
      · simp at h

/-- `Iterator::find` applied to `Iter`, as used by `ReadableDict::get`:
drain the filtering iterator until the predicate holds. -/
def Iter.find (it : Iter) (p : DictItem → Bool) : Option DictItem :=
  match h : CIter.step it.inner with
  | none => none
  | some (x, inner2) =>
    match decode_item x with
    | some kv => if p kv then some kv else Iter.find ⟨inner2⟩ p
    | none => Iter.find ⟨inner2⟩ p
termination_by it.inner.end_ - it.inner.next
decreasing_by
  all_goals
    simp only [CIter.step] at h
    split at h
    · simp at h
    · split at h
      · simp only [Option.some.injEq, Prod.mk.injEq] at h
        obtain ⟨-, rfl⟩ := h
        simp only []
        omega
      · simp at h

namespace ReadableDict

/-- `ReadableDict::iter_cstr`: start at the `items` pointer, end at
`items.offset(n_items)`. -/
def iter_cstr (d : spa_dict) : CIter :=
  ⟨d.items, 0, d.n_items⟩

/-- `ReadableDict::iter`: the UTF-8-filtering iterator over `iter_cstr`. -/
def iter (d : spa_dict) : Iter :=
  ⟨iter_cstr d⟩

/-- `ReadableDict::len`: `(*self.get_dict_ptr()).n_items as usize`. -/
def len (d : spa_dict) : Nat := d.n_items

/-- `ReadableDict::is_empty`: `self.len() == 0`. -/
def is_empty (d : spa_dict) : Bool := len d == 0

/-- `ReadableDict::get`:
`self.iter().find(|(k, _)| *k == key).map(|(_, v)| v)`. -/
def get (d : spa_dict) (key : CStr) : Option CStr :=
  (Iter.find (iter d) (fun p => p.1 == key)).map Prod.snd

end ReadableDict

/-- The single-pair dictionary `{"K0": "V0"}` used by the repository's own
tests (`make_raw_dict(1)`): key bytes `K0` = `[0x4B, 0x30]`, value bytes
`V0` = `[0x56, 0x30]`. -/
def dict_K0V0 : spa_dict :=
  { flags := 0, n_items := 1, items := some [([0x4B, 0x30], [0x56, 0x30])] }

/-! ## Intrusive lists and hooks (libspa/src/list.rs, libspa/src/hook.rs)

Memory holding the intrusive `spa_list` nodes is modelled as a total map
from addresses to node contents; `list::remove` performs the two pointer
writes of the source directly on that map.  The observable actions of a
listener teardown are recorded in a trace. -/

/-- One `spa_list` node: `prev` and `next` are addresses of other nodes. -/
structure spa_list where
  prev : Nat
  next : Nat

/-- The heap of intrusive-list nodes: contents of the node at each address. -/
def Heap := Nat → spa_list

/-- Write the `next` field of the node at address `a`:
models `(*a).next = v`. -/
def writeNext (st : Heap) (a v : Nat) : Heap :=
  fun b => if b = a then { st b with next := v } else st b

/-- Write the `prev` field of the node at address `a`:
models `(*a).prev = v`. -/
def writePrev (st : Heap) (a v : Nat) : Heap :=
  fun b => if b = a then { st b with prev := v } else st b

namespace list

/-- `list::remove`:
```rust
(*elem.prev).next = elem.next;
(*elem.next).prev = elem.prev;
```
A manual doubly-linked-list splice on the two neighbour nodes. -/
def remove (st : Heap) (elem : spa_list) : Heap :=
  let st1 := writeNext st elem.prev elem.next
  writePrev st1 elem.next elem.prev

end list

/-- Observable actions during listener teardown, in execution order. -/
inductive TraceEv where
  /-- The intrusive node was spliced out of its list (`list::remove`). -/
  | unlink
  /-- The native `removed` finalizer was invoked. -/
  | removedCall
  /-- The `events` event-table allocation was freed. -/
  | freeEvents
  /-- The pinned `spa_hook` box was freed. -/
  | freeHook
  /-- The callback-bundle (`data`) allocation was freed. -/
  | freeData
  deriving DecidableEq, Repr

/-- An `spa_hook`: its intrusive list node, and whether the native side set
the `removed` finalizer pointer. -/
structure spa_hook where
  link : spa_list
  removed : Bool

namespace hook

/-- `hook::remove`: splice the node out of its list, then invoke the
`removed` finalizer if the hook carries one. -/
def remove (st : Heap) (hk : spa_hook) : Heap × List TraceEv :=
  let st1 := list.remove st hk.link
  if hk.removed then (st1, [TraceEv.unlink, TraceEv.removedCall])
  else (st1, [TraceEv.unlink])

end hook

/-- A registered `Listener` (pipewire/src/core_.rs): holds the pinned
`spa_hook`; the `events` table and callback-bundle `data` boxes have no
state relevant to teardown beyond their eventual deallocation. -/
structure Listener where
  listener : spa_hook

/-- `impl Drop for Listener`: run `spa::hook::remove(*self.listener)`, then
the compiler drops the fields in declaration order (`events`, `listener`,
`data`), freeing their allocations. -/
def Listener.drop (st : Heap) (l : Listener) : Heap × List TraceEv :=
  let r := hook.remove st l.listener
  (r.1, r.2 ++ [TraceEv.freeEvents, TraceEv.freeHook, TraceEv.freeData])

/-! ## Listener registration (pipewire/src/core_.rs)

The builder accumulates optional callbacks; `register` synthesizes the
native `pw_core_events` table, populating only the slots whose callback
was supplied.  The user callbacks return values in an abstract result type
`R`; each table slot, when populated, holds the corresponding trampoline
(`core_events_info` &c.), which downcasts the opaque data pointer back to
the callback bundle and unwraps the matching callback (`none` = the
`unwrap` panic on a missing callback). -/

/-- The accumulated callback bundle (`ListenerLocalCallbacks`): the `info`
callback receives the core-info payload (abstracted as a `Nat`), `done`
receives `(id, seq)`, `error` receives `(id, seq, res, message)` with the
message already decoded from a C string. -/
structure ListenerLocalCallbacks (R : Type) where
  info : Option (Nat → R)
  done : Option (Nat → Nat → R)
  error : Option (Nat → Nat → Nat → CStr → R)

/-- `PW_VERSION_CORE_EVENTS` from the generated bindings; its actual value
is irrelevant to the claims. -/
def PW_VERSION_CORE_EVENTS : Nat := 0

/-- The native `pw_core_events` table: `mem::zeroed()` gives NULL (`none`)
function-pointer slots; populated slots hold the trampoline. -/
structure pw_core_events (R : Type) where
  version : Nat
  info : Option (ListenerLocalCallbacks R → Nat → Option R)
  done : Option (ListenerLocalCallbacks R → Nat → Nat → Option R)
  error : Option (ListenerLocalCallbacks R → Nat → Nat → Nat → CStr → Option R)

/-- Trampoline `core_events_info`: downcast `data`, unwrap `info`, call it. -/
def core_events_info (R : Type) (cbs : ListenerLocalCallbacks R) (info : Nat) :
    Option R :=
  match cbs.info with
  | some f => some (f info)
  | none => none

/-- Trampoline `core_events_done`: downcast `data`, unwrap `done`, call it. -/
def core_events_done (R : Type) (cbs : ListenerLocalCallbacks R) (id seq : Nat) :
    Option R :=
  match cbs.done with
  | some f => some (f id seq)
  | none => none

/-- Trampoline `core_events_error`: downcast `data`, decode the message C
string (`to_str().unwrap()`, `none` = panic on invalid UTF-8), unwrap
`error`, call it. -/
def core_events_error (R : Type) (cbs : ListenerLocalCallbacks R)
    (id seq res : Nat) (message : CStr) : Option R :=
  match message.to_str with
  | none => none
  | some msg =>
    match cbs.error with
    | some f => some (f id seq res msg)
    | none => none

/-- `ListenerLocalBuilder::register`, event-table synthesis: start from the
zeroed table with the version set, then populate exactly the slots whose
callback was supplied. -/
def register (R : Type) (cbs : ListenerLocalCallbacks R) : pw_core_events R :=
  let e : pw_core_events R :=
    { version := PW_VERSION_CORE_EVENTS, info := none, done := none, error := none }
  let e := if cbs.info.isSome then { e with info := some (core_events_info R) } else e
  let e := if cbs.done.isSome then { e with done := some (core_events_done R) } else e
  let e := if cbs.error.isSome then { e with error := some (core_events_error R) } else e
  e

/-- Native dispatch of a `done` event against a table: the dispatcher skips
a NULL slot (outer `none` = no callback invoked at all); a populated slot
invokes the trampoline with the opaque data pointer. -/
def deliver_done (R : Type) (e : pw_core_events R)
    (data : ListenerLocalCallbacks R) (id seq : Nat) : Option (Option R) :=
  match e.done with
  | none => none
  | some tramp => some (tramp data id seq)

/-- Native dispatch of an `info` event against a table. -/
def deliver_info (R : Type) (e : pw_core_events R)
    (data : ListenerLocalCallbacks R) (info : Nat) : Option (Option R) :=
  match e.info with
  | none => none
  | some tramp => some (tramp data info)

/-! ## Handle teardown (libspa/src/lib.rs)

`Handle` owns `Rc<RawHandle>`; `Handle::clear` uses `Rc::try_unwrap`
(success exactly when the strong count is 1) and then `RawHandle::clear`
(native `clear` call, deallocation, `mem::forget`, surfacing the result);
dropping a `Handle` drops the `Rc`, and the last drop runs
`RawHandle::drop` (native `clear` call, deallocation, errors swallowed).
We model the shared state of one `Rc<RawHandle>` under a sequence of
`clear`/`drop` operations, each consuming one live `Handle`, and record
native-effect events in a trace. -/

/-- Shared state of the reference-counted raw handle. -/
structure HandleState where
  /-- Number of live `Handle` values sharing the `Rc<RawHandle>`. -/
  strong : Nat
  /-- Number of native `clear` entry-point invocations so far. -/
  clearCalls : Nat
  /-- Whether the object memory has been deallocated. -/
  freed : Bool
  deriving DecidableEq, Repr

/-- Native effects of handle teardown. -/
inductive HandleEv where
  /-- The native `clear` entry point was invoked. -/
  | nativeClear
  /-- The object memory was deallocated. -/
  | dealloc
  deriving DecidableEq, Repr

/-- An operation consuming one live `Handle`. -/
inductive HandleOp where
  /-- Explicit `Handle::clear(self)`. -/
  | clear
  /-- Implicit `drop`. -/
  | drop
  deriving DecidableEq, Repr

/-- `Handle::clear`: `Rc::try_unwrap` succeeds iff this is the last strong
reference, in which case `RawHandle::clear` invokes the native `clear`
(returning the raw i32 `ret`), deallocates, forgets, and surfaces
`SpaResult::from_raw(ret).into_sync_result()`; otherwise the `Err(rc)`
temporary is dropped (count decreases) and `Ok(())` is returned. -/
def Handle.clear_op (ret : Nat) (st : HandleState) :
    HandleState × List HandleEv × Option (Except Nat Nat) :=
  if st.strong = 1 then
    ({ strong := 0, clearCalls := st.clearCalls + 1, freed := true },
     [HandleEv.nativeClear, HandleEv.dealloc],
     (SpaResult.from_raw ret).into_sync_result)
  else
    ({ st with strong := st.strong - 1 }, [], some (Except.ok 0))

/-- Dropping a `Handle`: the `Rc` drop decrements the count; the last drop
runs `RawHandle::drop` (native `clear`, then deallocation, result
ignored). -/
def Handle.drop_op (st : HandleState) : HandleState × List HandleEv :=
  if st.strong = 1 then
    ({ strong := 0, clearCalls := st.clearCalls + 1, freed := true },
     [HandleEv.nativeClear, HandleEv.dealloc])
  else
    ({ st with strong := st.strong - 1 }, [])

/-- Run a sequence of operations, each consuming one live handle,
accumulating the native-effect trace. -/
def runOps (ret : Nat) : List HandleOp → HandleState → HandleState × List HandleEv
  | [], st => (st, [])
  | op :: ops, st =>
    let r : HandleState × List HandleEv :=
      match op with
      | .clear =>
        let c := Handle.clear_op ret st
        (c.1, c.2.1)
      | .drop => Handle.drop_op st
    let rest := runOps ret ops r.1
    (rest.1, r.2 ++ rest.2)

/-! ## Registry binding (pipewire/src/registry.rs)

`Registry::bind::<T>` checks the requested static type against the
advertised type of the global object before issuing the remote `bind`
call; remote behaviour (the proxy pointer the remote side returns) is a
parameter, and issued remote calls are recorded.  The crate-level `Error`
enum is reconstructed from its uses in `registry.rs` (the snapshot's
`error.rs` lags behind and carries only `CreationFailed`). -/

/-- The object types of the generated `object_type!` macro invocation. -/
inductive ObjectType where
  | Client | ClientEndpoint | ClientNode | ClientSession | Core | Device
  | Endpoint | EndpointLink | EndpointStream | Factory | Link | Metadata
  | Module | Node | Port | Profiler | Registry | Session
  | Other (s : String)
  deriving DecidableEq, Repr

/-- `ObjectType::to_str`: the wire name of each interface type. -/
def ObjectType.to_str : ObjectType → String
  | .Client => "PipeWire:Interface:Client"
  | .ClientEndpoint => "PipeWire:Interface:ClientEndpoint"
  | .ClientNode => "PipeWire:Interface:ClientNode"
  | .ClientSession => "PipeWire:Interface:ClientSession"
  | .Core => "PipeWire:Interface:Core"
  | .Device => "PipeWire:Interface:Device"
  | .Endpoint => "PipeWire:Interface:Endpoint"
  | .EndpointLink => "PipeWire:Interface:EndpointLink"
  | .EndpointStream => "PipeWire:Interface:EndpointStream"
  | .Factory => "PipeWire:Interface:Factory"
  | .Link => "PipeWire:Interface:Link"
  | .Metadata => "PipeWire:Interface:Metadata"
  | .Module => "PipeWire:Interface:Module"
  | .Node => "PipeWire:Interface:Node"
  | .Port => "PipeWire:Interface:Port"
  | .Profiler => "PipeWire:Interface:Profiler"
  | .Registry => "PipeWire:Interface:Registry"
  | .Session => "PipeWire:Interface:Session"
  | .Other s => s

/-- The `PW_VERSION_*` constants of the generated bindings, one per
non-`Other` object type; their values are irrelevant to the claims. -/
structure pw_sys_versions where
  version_of : ObjectType → Nat

/-- `ObjectType::client_version`: the per-type version constant; panics
(`none`) on `Other`. -/
def ObjectType.client_version (pv : pw_sys_versions) : ObjectType → Option Nat
  | .Other _ => none
  | t => some (pv.version_of t)

/-- The high-level proxy wrapper types implementing `ProxyT` in the crate
(`Node`, `Port`, `Link`). -/
inductive ProxyKind where
  | Node | Port | Link
  deriving DecidableEq, Repr

/-- `<T as ProxyT>::type_()` for each wrapper type. -/
def ProxyKind.type_ : ProxyKind → ObjectType
  | .Node => ObjectType.Node
  | .Port => ObjectType.Port
  | .Link => ObjectType.Link

/-- The crate `Error` enum, as used by `registry.rs`. -/
inductive Error where
  | CreationFailed
  | WrongProxyType
  | NoMemory
  deriving DecidableEq, Repr

/-- `Proxy::new`: a wrapper around the raw proxy pointer. -/
structure Proxy where
  ptr : Nat
  deriving DecidableEq, Repr

/-- `T::new(proxy)`: the strongly typed wrapper holding the generic proxy. -/
structure BoundProxy where
  kind : ProxyKind
  proxy : Proxy
  deriving DecidableEq, Repr

/-- A remote call issued through the registry method table. -/
inductive RemoteCall where
  | bind (id : Nat) (type_ : String) (version : Nat)
  deriving DecidableEq, Repr

/-- A `GlobalObject` as delivered by a registry `global` event. -/
structure GlobalObject where
  id : Nat
  permissions : Nat
  type_ : ObjectType
  version : Nat
  props : Option spa_dict

namespace Registry

/-- `Registry::bind::<T>`: reject a requested/advertised type mismatch
before anything is allocated; otherwise issue the remote `bind` (recorded
in the returned call list) with the client-side version for the type, fail
with `NoMemory` on a NULL proxy, and otherwise return the typed wrapper.
`remote` gives the proxy pointer the remote side returns for a bind call
(`none` = NULL); the outer `Option` of the result is `none` only on the
(unreachable after the type check) `client_version` panic. -/
def bind (pv : pw_sys_versions) (remote : Nat → String → Nat → Option Nat)
    (k : ProxyKind) (object : GlobalObject) :
    Option (Except Error BoundProxy) × List RemoteCall :=
  if object.type_ ≠ k.type_ then
    (some (Except.error Error.WrongProxyType), [])
  else
    match ObjectType.client_version pv object.type_ with
    | none => (none, [])
    | some version =>
      match remote object.id (ObjectType.to_str object.type_) version with
      | none =>
        (some (Except.error Error.NoMemory),
         [RemoteCall.bind object.id (ObjectType.to_str object.type_) version])
      | some p =>
        (some (Except.ok ⟨k, ⟨p⟩⟩),
         [RemoteCall.bind object.id (ObjectType.to_str object.type_) version])

end Registry

/-! # Theorems -/

/-! ### i32 helper lemmas -/

theorem i32ToInt_neg_iff {w : Nat} (hw : w < 2 ^ 32) :
    i32ToInt w < 0 ↔ 2 ^ 31 ≤ w := by
  unfold i32ToInt
  split <;> omega

theorem i32ToInt_nonneg_iff {w : Nat} (hw : w < 2 ^ 32) :
    0 ≤ i32ToInt w ↔ w < 2 ^ 31 := by
  unfold i32ToInt
  split <;> omega

theorem SPA_ASYNC_BIT_eq : SPA_ASYNC_BIT = 2 ^ 30 := by decide

theorem SPA_VAL_MASK_eq : SPA_VAL_MASK = 2 ^ 30 - 1 := by decide

theorem NOT_VAL_MASK_eq : NOT_VAL_MASK = 2 ^ 30 + 2 ^ 31 := by decide

/-! ### Bit-level helper lemmas -/

theorem testBit_NOT_VAL_MASK (i : Nat) :
    Nat.testBit NOT_VAL_MASK i = (decide (i = 30) || decide (i = 31)) := by
  by_cases h : i < 32
  · have hall : ∀ j, j < 32 →
        Nat.testBit NOT_VAL_MASK j = (decide (j = 30) || decide (j = 31)) := by decide
    exact hall i h
  · have h30 : ¬ (i = 30) := by omega
    have h31 : ¬ (i = 31) := by omega
    have hlt : NOT_VAL_MASK < 2 ^ i := by
      calc NOT_VAL_MASK < 2 ^ 32 := by decide
      _ ≤ 2 ^ i := Nat.pow_le_pow_right (by omega) (by omega)
    simp [Nat.testBit_lt_two_pow hlt, h30, h31]

theorem testBit_SPA_ASYNC_BIT (i : Nat) :
    Nat.testBit SPA_ASYNC_BIT i = decide (30 = i) := by
  rw [SPA_ASYNC_BIT_eq]
  exact Nat.testBit_two_pow

theorem land_NOT_VAL_MASK_eq_zero_iff {w : Nat} :
    w &&& NOT_VAL_MASK = 0 ↔ (w.testBit 30 = false ∧ w.testBit 31 = false) := by
  constructor
  · intro h
    constructor
    · have h30 := congrArg (fun x => Nat.testBit x 30) h
      simpa [Nat.testBit_and, testBit_NOT_VAL_MASK] using h30
    · have h31 := congrArg (fun x => Nat.testBit x 31) h
      simpa [Nat.testBit_and, testBit_NOT_VAL_MASK] using h31
  · rintro ⟨h30, h31⟩
    apply Nat.eq_of_testBit_eq
    intro i
    simp only [Nat.testBit_and, testBit_NOT_VAL_MASK, Nat.zero_testBit]
    by_cases e30 : i = 30
    · simp [e30, h30]
    · by_cases e31 : i = 31
      · simp [e31, h31]
      · simp [e30, e31]

theorem land_NOT_VAL_MASK_eq_async_iff {w : Nat} :
    w &&& NOT_VAL_MASK = SPA_ASYNC_BIT ↔ (w.testBit 30 = true ∧ w.testBit 31 = false) := by
  constructor
  · intro h
    constructor
    · have h30 := congrArg (fun x => Nat.testBit x 30) h
      simpa [Nat.testBit_and, testBit_NOT_VAL_MASK, testBit_SPA_ASYNC_BIT] using h30
    · have h31 := congrArg (fun x => Nat.testBit x 31) h
      simpa [Nat.testBit_and, testBit_NOT_VAL_MASK, testBit_SPA_ASYNC_BIT] using h31
  · rintro ⟨h30, h31⟩
    apply Nat.eq_of_testBit_eq
    intro i
    simp only [Nat.testBit_and, testBit_NOT_VAL_MASK, testBit_SPA_ASYNC_BIT]
    by_cases e30 : i = 30
    · simp [e30, h30]
    · by_cases e31 : i = 31
      · simp [e31, h31, e30]
      · have e30s : ¬ (30 = i) := fun h => e30 h.symm
        simp [e30, e31, e30s]

theorem lt_two_pow_30_iff_testBit {w : Nat} (hw : w < 2 ^ 32) :
    w < 2 ^ 30 ↔ (w.testBit 30 = false ∧ w.testBit 31 = false) := by
  constructor
  · intro h
    refine ⟨Nat.testBit_lt_two_pow h, Nat.testBit_lt_two_pow ?_⟩
    calc w < 2 ^ 30 := h
    _ ≤ 2 ^ 31 := Nat.pow_le_pow_right (by omega) (by omega)
  · rintro ⟨h30, h31⟩
    apply Nat.lt_pow_two_of_testBit
    intro i hi
    by_cases e30 : i = 30
    · simpa [e30] using h30
    · by_cases e31 : i = 31
      · simpa [e31] using h31
      · exact Nat.testBit_lt_two_pow
          (lt_of_lt_of_le hw (Nat.pow_le_pow_right (by omega) (by omega)))

theorem testBit_31_iff {w : Nat} (hw : w < 2 ^ 32) :
    w.testBit 31 = true ↔ 2 ^ 31 ≤ w := by
  rw [Nat.testBit_to_div_mod]
  simp only [decide_eq_true_eq]
  omega

theorem or_async_eq_add {s : Nat} (hs : s < 2 ^ 30) :
    s ||| SPA_ASYNC_BIT = 2 ^ 30 + s := by
  rw [SPA_ASYNC_BIT_eq, Nat.lor_comm]
  have h := Nat.mul_add_lt_is_or (i := 30) hs 1
  simpa using h.symm

theorem i32_in_range_iff {w : Nat} (hw : w < 2 ^ 32) :
    (0 ≤ i32ToInt w ∧ i32ToInt w < 2 ^ 30) ↔ w < 2 ^ 30 := by
  unfold i32ToInt
  split <;> omega

theorem i32ToInt_of_ge {w : Nat} (h1 : 2 ^ 31 ≤ w) (h2 : w < 2 ^ 32) :
    i32ToInt w = (w : Int) - 2 ^ 32 := by
  unfold i32ToInt
  split <;> omega

/-! ### Theorems about SpaResult -/

/-- C2: the tri-state encoding round-trips.  For every `v` with
`0 ≤ v < 2^30`, `SpaResult::new_ok(v)` does not panic, satisfies `is_ok()`
and `unwrap_ok()` returns `v`; for every `s` with `0 ≤ s < 2^30`,
`SpaResult::new_async(s)` satisfies `is_async()` and `unwrap_async()`
returns `s`; for every positive i32 `c`, `SpaResult::new_err(c)` satisfies
`is_err()` and `unwrap_error()` yields an OS-style error of magnitude `c`. -/
theorem spa_result_roundtrip (v s c : Nat)
    (hv : v < 2 ^ 30) (hs : s < 2 ^ 30) (hc0 : 0 < c) (hc : c < 2 ^ 31) :
    (∃ r, SpaResult.new_ok v = some r ∧ r.is_ok = true ∧ r.unwrap_ok = some v) ∧
    (∃ r, SpaResult.new_async s = some r ∧ r.is_async = true ∧
      r.unwrap_async = some s) ∧
    (∃ r, SpaResult.new_err c = some r ∧ r.is_err = true ∧
      r.unwrap_error = some c) := by
  have hv32 : v < 2 ^ 32 := by omega
  have hs32 : s < 2 ^ 32 := by omega
  have hvz : v &&& NOT_VAL_MASK = 0 :=
    land_NOT_VAL_MASK_eq_zero_iff.mpr ((lt_two_pow_30_iff_testBit hv32).mp hv)
  refine ⟨⟨⟨v⟩, ?_, ?_, ?_⟩, ?_, ?_⟩
  · simp [SpaResult.new_ok, hvz]
  · simp [SpaResult.is_ok, hvz]
  · simp [SpaResult.unwrap_ok, hvz]
  · -- the async round trip
    have hsz : (s.testBit 30 = false ∧ s.testBit 31 = false) :=
      (lt_two_pow_30_iff_testBit hs32).mp hs
    have hsa : (s ||| SPA_ASYNC_BIT) &&& NOT_VAL_MASK = SPA_ASYNC_BIT := by
      apply land_NOT_VAL_MASK_eq_async_iff.mpr
      constructor
      · simp [Nat.testBit_or, testBit_SPA_ASYNC_BIT, hsz.1]
      · simp [Nat.testBit_or, testBit_SPA_ASYNC_BIT, hsz.2]
    have hz : s &&& NOT_VAL_MASK = 0 :=
      land_NOT_VAL_MASK_eq_zero_iff.mpr hsz
    refine ⟨⟨s ||| SPA_ASYNC_BIT⟩, ?_, ?_, ?_⟩
    · simp [SpaResult.new_async, hz]
    · simp [SpaResult.is_async, hsa]
    · simp only [SpaResult.unwrap_async, hsa]
      rw [if_neg (by simp)]
      rw [SPA_VAL_MASK_eq, Nat.and_pow_two_sub_one_eq_mod, or_async_eq_add hs]
      congr 1
      omega
  · -- the error round trip
    have hcpos : 0 < i32ToInt c := by
      unfold i32ToInt
      split <;> omega
    have hge : 2 ^ 31 ≤ neg32 c := by
      unfold neg32
      omega
    have hlt : neg32 c < 2 ^ 32 := by
      unfold neg32
      omega
    have herr : i32ToInt (neg32 c) < 0 := by
      rw [i32ToInt_of_ge hge hlt]
      have : (neg32 c : Int) < 2 ^ 32 := by exact_mod_cast hlt
      omega
    refine ⟨⟨neg32 c⟩, ?_, ?_, ?_⟩
    · unfold SpaResult.new_err
      rw [if_neg (by omega)]
    · simp only [SpaResult.is_err, decide_eq_true_eq]
      exact herr
    · simp only [SpaResult.unwrap_error]
      rw [if_neg (not_le.mpr herr)]
      congr 1
      unfold neg32
      omega

/-- Witness for `spa_result_roundtrip` at `v = 5`, `s = 7`, `c = 3`. -/
theorem spa_result_roundtrip_witness :
    (∃ r, SpaResult.new_ok 5 = some r ∧ r.is_ok = true ∧ r.unwrap_ok = some 5) ∧
    (∃ r, SpaResult.new_async 7 = some r ∧ r.is_async = true ∧
      r.unwrap_async = some 7) ∧
    (∃ r, SpaResult.new_err 3 = some r ∧ r.is_err = true ∧
      r.unwrap_error = some 3) :=
  spa_result_roundtrip 5 7 3 (by decide) (by decide) (by decide) (by decide)

/-- C3: `new_ok` and `new_async` panic for exactly the i32 inputs whose
value lies outside `[0, 2^30 - 1]` (every negative input and every input
`≥ 2^30`), and return normally for every input inside that interval. -/
theorem new_ok_new_async_panic_iff (w : Nat) (hw : w < 2 ^ 32) :
    ((SpaResult.new_ok w = none) ↔ ¬ (0 ≤ i32ToInt w ∧ i32ToInt w < 2 ^ 30)) ∧
    ((SpaResult.new_async w = none) ↔ ¬ (0 ≤ i32ToInt w ∧ i32ToInt w < 2 ^ 30)) := by
  have key : (w &&& NOT_VAL_MASK ≠ 0) ↔ ¬ (0 ≤ i32ToInt w ∧ i32ToInt w < 2 ^ 30) := by
    rw [i32_in_range_iff hw]
    rw [not_iff_not (b := w < 2 ^ 30)]
    rw [lt_two_pow_30_iff_testBit hw]
    exact land_NOT_VAL_MASK_eq_zero_iff
  constructor
  · unfold SpaResult.new_ok
    split
    · simp_all
    · simp_all
  · unfold SpaResult.new_async
    split
    · simp_all
    · simp_all

/-- Witness for `new_ok_new_async_panic_iff`: at `w = 2^30` both
constructors panic, at `w = 3` neither does. -/
theorem new_ok_new_async_panic_iff_witness :
    (SpaResult.new_ok 1073741824 = none) ∧ (SpaResult.new_async 1073741824 = none) ∧
    (SpaResult.new_ok 3 ≠ none) ∧ (SpaResult.new_async 3 ≠ none) := by
  have h1 := new_ok_new_async_panic_iff 1073741824 (by decide)
  have h2 := new_ok_new_async_panic_iff 3 (by decide)
  refine ⟨h1.1.mpr (by decide), h1.2.mpr (by decide), ?_, ?_⟩
  · intro h
    exact absurd (h2.1.mp h) (by decide)
  · intro h
    exact absurd (h2.2.mp h) (by decide)

/-- C10: every raw i32 value is classified into exactly one of the three
categories `is_ok` / `is_async` / `is_err`: a value with the sign bit set
is an error (even when bit 30 is also set), a non-negative value with bit
30 set is asynchronous, and every other value is a synchronous success. -/
theorem from_raw_exactly_one_category (r : Nat) (hr : r < 2 ^ 32) :
    ((SpaResult.from_raw r).is_ok = true ∧ (SpaResult.from_raw r).is_async = false ∧
      (SpaResult.from_raw r).is_err = false) ∨
    ((SpaResult.from_raw r).is_ok = false ∧ (SpaResult.from_raw r).is_async = true ∧
      (SpaResult.from_raw r).is_err = false) ∨
    ((SpaResult.from_raw r).is_ok = false ∧ (SpaResult.from_raw r).is_async = false ∧
      (SpaResult.from_raw r).is_err = true) := by
  have herr : (SpaResult.from_raw r).is_err = true ↔ r.testBit 31 = true := by
    simp only [SpaResult.is_err, SpaResult.from_raw, decide_eq_true_eq]
    rw [i32ToInt_neg_iff hr, testBit_31_iff hr]
  have hok : (SpaResult.from_raw r).is_ok = true ↔
      (r.testBit 30 = false ∧ r.testBit 31 = false) := by
    simp only [SpaResult.is_ok, SpaResult.from_raw, beq_iff_eq]
    exact land_NOT_VAL_MASK_eq_zero_iff
  have hasync : (SpaResult.from_raw r).is_async = true ↔
      (r.testBit 30 = true ∧ r.testBit 31 = false) := by
    simp only [SpaResult.is_async, SpaResult.from_raw, beq_iff_eq]
    exact land_NOT_VAL_MASK_eq_async_iff
  rcases h31 : r.testBit 31 with _ | _
  · rcases h30 : r.testBit 30 with _ | _
    · left
      refine ⟨hok.mpr ⟨h30, h31⟩, ?_, ?_⟩
      · rcases ha : (SpaResult.from_raw r).is_async with _ | _
        · rfl
        · exact absurd (hasync.mp ha).1 (by simp [h30])
      · rcases he : (SpaResult.from_raw r).is_err with _ | _
        · rfl
        · exact absurd (herr.mp he) (by simp [h31])
    · right; left
      refine ⟨?_, hasync.mpr ⟨h30, h31⟩, ?_⟩
      · rcases ho : (SpaResult.from_raw r).is_ok with _ | _
        · rfl
        · exact absurd (hok.mp ho).1 (by simp [h30])
      · rcases he : (SpaResult.from_raw r).is_err with _ | _
        · rfl
        · exact absurd (herr.mp he) (by simp [h31])
  · right; right
    refine ⟨?_, ?_, herr.mpr h31⟩
    · rcases ho : (SpaResult.from_raw r).is_ok with _ | _
      · rfl
      · exact absurd (hok.mp ho).2 (by simp [h31])
    · rcases ha : (SpaResult.from_raw r).is_async with _ | _
      · rfl
      · exact absurd (hasync.mp ha).2 (by simp [h31])

/-! ### Dictionary iterator lemmas -/

theorem CIter.step_eq_some {it : CIter} {x : DictItem} {it2 : CIter}
    (h : CIter.step it = some (x, it2)) :
    it.next < it.end_ ∧ it2.base = it.base ∧ it2.next = it.next + 1 ∧
      it2.end_ = it.end_ := by
  unfold CIter.step at h
  split at h
  · exact absurd h (by simp)
  · split at h
    · simp only [Option.some.injEq, Prod.mk.injEq] at h
      obtain ⟨-, rfl⟩ := h
      simp_all
    · exact absurd h (by simp)

theorem CIter.toList_of_step_none {it : CIter} (h : CIter.step it = none) :
    CIter.toList it = [] := by
  rw [CIter.toList]
  split
  · rfl
  · rename_i x it2 heq
    rw [h] at heq
    cases heq

theorem CIter.toList_of_step_some {it : CIter} {x : DictItem} {it2 : CIter}
    (h : CIter.step it = some (x, it2)) :
    CIter.toList it = x :: CIter.toList it2 := by
  rw [CIter.toList]
  split
  · rename_i heq
    rw [h] at heq
    cases heq
  · rename_i y it3 heq
    rw [h] at heq
    cases heq
    rfl

theorem CIter.step_lt {arr : List DictItem} {i e : Nat} (hlt : i < e) :
    CIter.step ⟨some arr, i, e⟩ = some (arr.getD i ([], []), ⟨some arr, i + 1, e⟩) := by
  simp [CIter.step, hlt]

theorem CIter.step_ge {arr : List DictItem} {i e : Nat} (hge : e ≤ i) :
    CIter.step ⟨some arr, i, e⟩ = none := by
  simp [CIter.step]
  omega

theorem CIter.step_null {i e : Nat} : CIter.step ⟨none, i, e⟩ = none := by
  simp [CIter.step]

theorem CIter.toList_arr {arr : List DictItem} {e : Nat} (he : e ≤ arr.length) :
    ∀ i, CIter.toList ⟨some arr, i, e⟩ = (arr.take e).drop i := by
  suffices h : ∀ k i, e - i ≤ k →
      CIter.toList ⟨some arr, i, e⟩ = (arr.take e).drop i from
    fun i => h (e - i) i le_rfl
  intro k
  induction k with
  | zero =>
    intro i hi
    rw [CIter.toList_of_step_none (CIter.step_ge (by omega))]
    symm
    apply List.drop_eq_nil_of_le
    simp only [List.length_take]
    omega
  | succ k ih =>
    intro i hi
    by_cases hlt : i < e
    · rw [CIter.toList_of_step_some (CIter.step_lt hlt), ih (i + 1) (by omega)]
      have hlen : i < (arr.take e).length := by
        simp only [List.length_take]
        omega
      have hlena : i < arr.length := by omega
      rw [List.drop_eq_getElem_cons hlen]
      congr 1
      have h1 : (arr.take e)[i]? = arr[i]? := List.getElem?_take_of_lt hlt
      rw [List.getElem?_eq_getElem hlen, List.getElem?_eq_getElem hlena] at h1
      simp only [Option.some.injEq] at h1
      rw [List.getD_eq_getElem?_getD, List.getElem?_eq_getElem hlena]
      simp [h1]
    · rw [CIter.toList_of_step_none (CIter.step_ge (by omega))]
      symm
      apply List.drop_eq_nil_of_le
      simp only [List.length_take]
      omega

theorem CIter.stepN_null {i e : Nat} : ∀ k, CIter.stepN k ⟨none, i, e⟩ = ⟨none, i, e⟩ := by
  intro k
  cases k with
  | zero => rfl
  | succ k => simp [CIter.stepN, CIter.step_null]

theorem CIter.stepN_from {arr : List DictItem} {e : Nat} :
    ∀ k i, i + k ≤ e → CIter.stepN k ⟨some arr, i, e⟩ = ⟨some arr, i + k, e⟩ := by
  intro k
  induction k with
  | zero => intro i _; rfl
  | succ k ih =>
    intro i h
    have hlt : i < e := by omega
    have : CIter.stepN (k + 1) ⟨some arr, i, e⟩ = CIter.stepN k ⟨some arr, i + 1, e⟩ := by
      simp [CIter.stepN, CIter.step_lt hlt]
    rw [this, ih (i + 1) (by omega)]
    congr 1
    omega

theorem Iter.toList_of_inner_none {it : Iter} (h : CIter.step it.inner = none) :
    Iter.toList it = [] := by
  rw [Iter.toList]
  split
  · rfl
  · rename_i x inner2 heq
    rw [h] at heq
    cases heq

theorem Iter.toList_of_yield {it : Iter} {x kv : DictItem} {inner2 : CIter}
    (h : CIter.step it.inner = some (x, inner2)) (hd : decode_item x = some kv) :
    Iter.toList it = kv :: Iter.toList ⟨inner2⟩ := by
  rw [Iter.toList]
  split
  · rename_i heq
    rw [h] at heq
    cases heq
  · rename_i y inner3 heq
    rw [h] at heq
    cases heq
    rw [hd]

theorem Iter.toList_of_skip {it : Iter} {x : DictItem} {inner2 : CIter}
    (h : CIter.step it.inner = some (x, inner2)) (hd : decode_item x = none) :
    Iter.toList it = Iter.toList ⟨inner2⟩ := by
  rw [Iter.toList]
  split
  · rename_i heq
    rw [h] at heq
    cases heq
  · rename_i y inner3 heq
    rw [h] at heq
    cases heq
    rw [hd]

theorem Iter.find_of_step_none {it : Iter} {p : DictItem → Bool}
    (h : CIter.step it.inner = none) :
    Iter.find it p = none := by
  rw [Iter.find]
  split
  · rfl
  · rename_i x inner2 heq
    rw [h] at heq
    cases heq

theorem Iter.find_of_yield {it : Iter} {p : DictItem → Bool} {x kv : DictItem}
    {inner2 : CIter}
    (h : CIter.step it.inner = some (x, inner2)) (hd : decode_item x = some kv) :
    Iter.find it p = if p kv then some kv else Iter.find ⟨inner2⟩ p := by
  rw [Iter.find]
  split
  · rename_i heq
    rw [h] at heq
    cases heq
  · rename_i y inner3 heq
    rw [h] at heq
    cases heq
    rw [hd]

theorem Iter.find_of_skip {it : Iter} {p : DictItem → Bool} {x : DictItem}
    {inner2 : CIter}
    (h : CIter.step it.inner = some (x, inner2)) (hd : decode_item x = none) :
    Iter.find it p = Iter.find ⟨inner2⟩ p := by
  rw [Iter.find]
  split
  · rename_i heq
    rw [h] at heq
    cases heq
  · rename_i y inner3 heq
    rw [h] at heq
    cases heq
    rw [hd]

/-- `Iter` drains to exactly the decodable items of the raw iterator, in
order. -/
theorem Iter.toList_eq_filterMap :
    ∀ it : Iter, Iter.toList it = (CIter.toList it.inner).filterMap decode_item := by
  suffices h : ∀ k (it : Iter), it.inner.end_ - it.inner.next ≤ k →
      Iter.toList it = (CIter.toList it.inner).filterMap decode_item from
    fun it => h (it.inner.end_ - it.inner.next) it le_rfl
  intro k
  induction k with
  | zero =>
    intro it hk
    have hstep : CIter.step it.inner = none := by
      unfold CIter.step
      split
      · rfl
      · rw [if_neg (by omega)]
    rw [Iter.toList_of_inner_none hstep, CIter.toList_of_step_none hstep]
    rfl
  | succ k ih =>
    intro it hk
    cases hstep : CIter.step it.inner with
    | none =>
      rw [Iter.toList_of_inner_none hstep, CIter.toList_of_step_none hstep]
      rfl
    | some y =>
      obtain ⟨x, inner2⟩ := y
      obtain ⟨hlt, -, hn2, he2⟩ := CIter.step_eq_some hstep
      have hm : inner2.end_ - inner2.next ≤ k := by omega
      rw [CIter.toList_of_step_some hstep]
      cases hdec : decode_item x with
      | none =>
        rw [Iter.toList_of_skip hstep hdec, List.filterMap_cons_none hdec]
        exact ih ⟨inner2⟩ hm
      | some kv =>
        rw [Iter.toList_of_yield hstep hdec, List.filterMap_cons_some hdec]
        rw [ih ⟨inner2⟩ hm]

/-- `Iterator::find` over `Iter` agrees with `find?` over the drained
sequence. -/
theorem Iter.find_eq_find? :
    ∀ (it : Iter) (p : DictItem → Bool), Iter.find it p = (Iter.toList it).find? p := by
  suffices h : ∀ k (it : Iter) (p : DictItem → Bool), it.inner.end_ - it.inner.next ≤ k →
      Iter.find it p = (Iter.toList it).find? p from
    fun it p => h (it.inner.end_ - it.inner.next) it p le_rfl
  intro k
  induction k with
  | zero =>
    intro it p hk
    have hstep : CIter.step it.inner = none := by
      unfold CIter.step
      split
      · rfl
      · rw [if_neg (by omega)]
    rw [Iter.find_of_step_none hstep, Iter.toList_of_inner_none hstep]
    rfl
  | succ k ih =>
    intro it p hk
    cases hstep : CIter.step it.inner with
    | none =>
      rw [Iter.find_of_step_none hstep, Iter.toList_of_inner_none hstep]
      rfl
    | some y =>
      obtain ⟨x, inner2⟩ := y
      obtain ⟨hlt, -, hn2, he2⟩ := CIter.step_eq_some hstep
      have hm : inner2.end_ - inner2.next ≤ k := by omega
      cases hdec : decode_item x with
      | none =>
        rw [Iter.find_of_skip hstep hdec, Iter.toList_of_skip hstep hdec]
        exact ih ⟨inner2⟩ p hm
      | some kv =>
        rw [Iter.find_of_yield hstep hdec, Iter.toList_of_yield hstep hdec]
        by_cases hp : p kv
        · rw [if_pos hp, List.find?_cons_of_pos _ hp]
        · rw [if_neg hp, List.find?_cons_of_neg _ hp]
          exact ih ⟨inner2⟩ p hm

theorem filterMap_decode_of_all_valid :
    ∀ l : List DictItem, (∀ p ∈ l, decode_item p = some p) →
      l.filterMap decode_item = l := by
  intro l
  induction l with
  | nil => intro _; rfl
  | cons a l ih =>
    intro h
    rw [List.filterMap_cons_some (h a (List.mem_cons_self a l))]
    rw [ih (fun p hp => h p (List.mem_cons_of_mem a hp))]

/-! ### Theorems about the dictionary (C1, C4, C5) -/

/-- C1 (counterexample evaluation): on the repository's own one-pair test
dictionary `{"K0": "V0"}`, a fresh `iter_cstr` reports a size hint of
`2^64 - 1` pairs, not `(1, Some(1))`: `size_hint` computes
`next.offset_from(end)` (= `-1`) and wraps it to `usize`. -/
theorem size_hint_one_pair_bug :
    CIter.size_hint (ReadableDict.iter_cstr dict_K0V0) =
      (18446744073709551615, some 18446744073709551615) ∧
    CIter.size_hint (ReadableDict.iter_cstr dict_K0V0) ≠ (1, some 1) := by
  constructor
  · rfl
  · decide

/-- C4: a `ForeignDict` over a backing array of `n` pairs (including the
NULL-items zero-length case) drains to exactly `n` pairs from `iter_cstr`
(the backing array itself, in order), is exhausted afterwards (`next`
returns `None`), and `len`/`is_empty` agree with `n`. -/
theorem dict_iter_cstr_count (d : spa_dict) (n : Nat) (hn : d.n_items = n)
    (hsome : ∀ arr, d.items = some arr → arr.length = n)
    (hnone : d.items = none → n = 0) :
    (CIter.toList (ReadableDict.iter_cstr d)).length = n ∧
    (∀ arr, d.items = some arr → CIter.toList (ReadableDict.iter_cstr d) = arr) ∧
    CIter.step (CIter.stepN n (ReadableDict.iter_cstr d)) = none ∧
    ReadableDict.len d = n ∧
    (ReadableDict.is_empty d = true ↔ n = 0) := by
  unfold ReadableDict.iter_cstr
  cases hd : d.items with
  | none =>
    have h0 : n = 0 := hnone hd
    subst h0
    rw [hn]
    refine ⟨?_, ?_, ?_, ?_, ?_⟩
    · rw [CIter.toList_of_step_none CIter.step_null]
      rfl
    · intro arr harr
      exact absurd harr (by simp)
    · rw [CIter.stepN_null 0]
      exact CIter.step_null
    · exact hn
    · simp [ReadableDict.is_empty, ReadableDict.len, hn]
  | some arr =>
    have hlen : arr.length = n := hsome arr hd
    rw [hn]
    have htl : CIter.toList ⟨some arr, 0, n⟩ = arr := by
      rw [CIter.toList_arr (by omega) 0]
      rw [List.drop_zero, ← hlen, List.take_length]
    refine ⟨?_, ?_, ?_, ?_, ?_⟩
    · rw [htl, hlen]
    · intro arr2 harr2
      cases harr2
      exact htl
    · rw [CIter.stepN_from n 0 (by omega)]
      exact CIter.step_ge (by omega)
    · exact hn
    · simp [ReadableDict.is_empty, ReadableDict.len, hn]

/-- Witness for `dict_iter_cstr_count` at the one-pair dictionary
`{"K0": "V0"}`. -/
theorem dict_iter_cstr_count_witness :
    (CIter.toList (ReadableDict.iter_cstr dict_K0V0)).length = 1 ∧
    (∀ arr, dict_K0V0.items = some arr →
      CIter.toList (ReadableDict.iter_cstr dict_K0V0) = arr) ∧
    CIter.step (CIter.stepN 1 (ReadableDict.iter_cstr dict_K0V0)) = none ∧
    ReadableDict.len dict_K0V0 = 1 ∧
    (ReadableDict.is_empty dict_K0V0 = true ↔ 1 = 0) :=
  dict_iter_cstr_count dict_K0V0 1 rfl
    (by
      intro arr harr
      simp only [dict_K0V0, Option.some.injEq] at harr
      rw [← harr]
      rfl)
    (by
      intro h
      simp [dict_K0V0] at h)

/-- C5: `iter` yields exactly the UTF-8-decodable pairs of the backing
array in order (`filterMap` of the decoding closure); over an all-valid
dictionary it yields the backing array itself; and `get(key)` returns the
value of the first decodable pair whose key matches exactly, or `none`. -/
theorem dict_iter_utf8_get (d : spa_dict) (arr : List DictItem)
    (hd : d.items = some arr) (hn : d.n_items = arr.length) :
    Iter.toList (ReadableDict.iter d) = arr.filterMap decode_item ∧
    ((∀ p ∈ arr, decode_item p = some p) →
      Iter.toList (ReadableDict.iter d) = arr) ∧
    (∀ key, ReadableDict.get d key =
      ((arr.filterMap decode_item).find? (fun p => p.1 == key)).map Prod.snd) := by
  have htl : CIter.toList (ReadableDict.iter_cstr d) = arr := by
    unfold ReadableDict.iter_cstr
    rw [hd, hn]
    rw [CIter.toList_arr (le_refl arr.length) 0]
    rw [List.drop_zero, List.take_length]
  have hfil : Iter.toList (ReadableDict.iter d) = arr.filterMap decode_item := by
    rw [Iter.toList_eq_filterMap]
    unfold ReadableDict.iter
    rw [htl]
  refine ⟨hfil, ?_, ?_⟩
  · intro hall
    rw [hfil, filterMap_decode_of_all_valid arr hall]
  · intro key
    unfold ReadableDict.get
    rw [Iter.find_eq_find?, hfil]

/-- Witness for `dict_iter_utf8_get` at the one-pair dictionary
`{"K0": "V0"}`, with lookup key `"K0"`. -/
theorem dict_iter_utf8_get_witness :
    Iter.toList (ReadableDict.iter dict_K0V0) =
      [([0x4B, 0x30], [0x56, 0x30])].filterMap decode_item ∧
    Iter.toList (ReadableDict.iter dict_K0V0) = [([0x4B, 0x30], [0x56, 0x30])] ∧
    ReadableDict.get dict_K0V0 [0x4B, 0x30] =
      (([([0x4B, 0x30], [0x56, 0x30])].filterMap decode_item).find?
        (fun p => p.1 == [0x4B, 0x30])).map Prod.snd := by
  have h := dict_iter_utf8_get dict_K0V0 [([0x4B, 0x30], [0x56, 0x30])] rfl rfl
  exact ⟨h.1, h.2.1 (by decide), h.2.2 [0x4B, 0x30]⟩

/-- Witness for `from_raw_exactly_one_category` at `r = 0x80000000 + 0x40000000`
(sign bit and async bit both set): classified as an error only. -/
theorem from_raw_exactly_one_category_witness :
    ((SpaResult.from_raw 3221225472).is_ok = true ∧
      (SpaResult.from_raw 3221225472).is_async = false ∧
      (SpaResult.from_raw 3221225472).is_err = false) ∨
    ((SpaResult.from_raw 3221225472).is_ok = false ∧
      (SpaResult.from_raw 3221225472).is_async = true ∧
      (SpaResult.from_raw 3221225472).is_err = false) ∨
    ((SpaResult.from_raw 3221225472).is_ok = false ∧
      (SpaResult.from_raw 3221225472).is_async = false ∧
      (SpaResult.from_raw 3221225472).is_err = true) :=
  from_raw_exactly_one_category 3221225472 (by decide)

/-! ### Theorems about hooks and listener teardown (C6) -/

/-- `list::remove` splices the node's neighbours together. -/
theorem list.remove_splice (st : Heap) (e : spa_list) :
    ((list.remove st e) e.prev).next = e.next ∧
    ((list.remove st e) e.next).prev = e.prev := by
  unfold list.remove writeNext writePrev
  constructor
  · by_cases h : e.prev = e.next <;> simp [h]
  · simp

theorem Listener.drop_heap (st : Heap) (l : Listener) :
    (Listener.drop st l).1 = list.remove st l.listener.link := by
  unfold Listener.drop hook.remove
  cases l.listener.removed <;> simp

theorem Listener.drop_trace (st : Heap) (l : Listener) :
    (Listener.drop st l).2 =
      TraceEv.unlink ::
        ((if l.listener.removed then [TraceEv.removedCall] else []) ++
          [TraceEv.freeEvents, TraceEv.freeHook, TraceEv.freeData]) := by
  unfold Listener.drop hook.remove
  cases l.listener.removed <;> simp

/-- C6: unregistering a listener (its `Drop` impl, also reached by explicit
`unregister`) first splices the intrusive `spa_hook` node out of its list
by adjusting the neighbour pointers, then invokes the native `removed`
finalizer exactly when the hook carries one, and frees the event-table,
hook and callback-bundle allocations only after both steps — no allocation
is freed before the unlink. -/
theorem listener_drop_order (st : Heap) (l : Listener) :
    (((Listener.drop st l).1 l.listener.link.prev).next = l.listener.link.next ∧
     ((Listener.drop st l).1 l.listener.link.next).prev = l.listener.link.prev) ∧
    (Listener.drop st l).2.indexOf TraceEv.unlink = 0 ∧
    (l.listener.removed = true →
      TraceEv.removedCall ∈ (Listener.drop st l).2 ∧
      (Listener.drop st l).2.indexOf TraceEv.unlink <
        (Listener.drop st l).2.indexOf TraceEv.removedCall ∧
      (Listener.drop st l).2.indexOf TraceEv.removedCall <
        (Listener.drop st l).2.indexOf TraceEv.freeEvents ∧
      (Listener.drop st l).2.indexOf TraceEv.removedCall <
        (Listener.drop st l).2.indexOf TraceEv.freeData) ∧
    (l.listener.removed = false → TraceEv.removedCall ∉ (Listener.drop st l).2) ∧
    (Listener.drop st l).2.indexOf TraceEv.unlink <
      (Listener.drop st l).2.indexOf TraceEv.freeEvents ∧
    (Listener.drop st l).2.indexOf TraceEv.unlink <
      (Listener.drop st l).2.indexOf TraceEv.freeHook ∧
    (Listener.drop st l).2.indexOf TraceEv.unlink <
      (Listener.drop st l).2.indexOf TraceEv.freeData := by
  have hsp := list.remove_splice st l.listener.link
  have hh := Listener.drop_heap st l
  have ht := Listener.drop_trace st l
  refine ⟨⟨?_, ?_⟩, ?_⟩
  · rw [hh]
    exact hsp.1
  · rw [hh]
    exact hsp.2
  · rw [ht]
    cases hr : l.listener.removed <;> simp only [if_true, if_false] <;>
      refine ⟨by decide, ?_, ?_⟩ <;> simp_all

/-- Witness instantiation for `listener_drop_order`: a concrete heap and a
hook carrying a `removed` finalizer. -/
theorem listener_drop_order_witness :
    (((Listener.drop (fun _ => ⟨0, 0⟩) ⟨⟨⟨5, 9⟩, true⟩⟩).1 5).next = 9 ∧
     ((Listener.drop (fun _ => ⟨0, 0⟩) ⟨⟨⟨5, 9⟩, true⟩⟩).1 9).prev = 5) ∧
    (Listener.drop (fun _ => ⟨0, 0⟩) ⟨⟨⟨5, 9⟩, true⟩⟩).2.indexOf TraceEv.unlink = 0 ∧
    (true = true →
      TraceEv.removedCall ∈ (Listener.drop (fun _ => ⟨0, 0⟩) ⟨⟨⟨5, 9⟩, true⟩⟩).2 ∧
      (Listener.drop (fun _ => ⟨0, 0⟩) ⟨⟨⟨5, 9⟩, true⟩⟩).2.indexOf TraceEv.unlink <
        (Listener.drop (fun _ => ⟨0, 0⟩) ⟨⟨⟨5, 9⟩, true⟩⟩).2.indexOf TraceEv.removedCall ∧
      (Listener.drop (fun _ => ⟨0, 0⟩) ⟨⟨⟨5, 9⟩, true⟩⟩).2.indexOf TraceEv.removedCall <
        (Listener.drop (fun _ => ⟨0, 0⟩) ⟨⟨⟨5, 9⟩, true⟩⟩).2.indexOf TraceEv.freeEvents ∧
      (Listener.drop (fun _ => ⟨0, 0⟩) ⟨⟨⟨5, 9⟩, true⟩⟩).2.indexOf TraceEv.removedCall <
        (Listener.drop (fun _ => ⟨0, 0⟩) ⟨⟨⟨5, 9⟩, true⟩⟩).2.indexOf TraceEv.freeData) ∧
    (true = false →
      TraceEv.removedCall ∉ (Listener.drop (fun _ => ⟨0, 0⟩) ⟨⟨⟨5, 9⟩, true⟩⟩).2) ∧
    (Listener.drop (fun _ => ⟨0, 0⟩) ⟨⟨⟨5, 9⟩, true⟩⟩).2.indexOf TraceEv.unlink <
      (Listener.drop (fun _ => ⟨0, 0⟩) ⟨⟨⟨5, 9⟩, true⟩⟩).2.indexOf TraceEv.freeEvents ∧
    (Listener.drop (fun _ => ⟨0, 0⟩) ⟨⟨⟨5, 9⟩, true⟩⟩).2.indexOf TraceEv.unlink <
      (Listener.drop (fun _ => ⟨0, 0⟩) ⟨⟨⟨5, 9⟩, true⟩⟩).2.indexOf TraceEv.freeHook ∧
    (Listener.drop (fun _ => ⟨0, 0⟩) ⟨⟨⟨5, 9⟩, true⟩⟩).2.indexOf TraceEv.unlink <
      (Listener.drop (fun _ => ⟨0, 0⟩) ⟨⟨⟨5, 9⟩, true⟩⟩).2.indexOf TraceEv.freeData :=
  listener_drop_order (fun _ => ⟨0, 0⟩) ⟨⟨⟨5, 9⟩, true⟩⟩

/-! ### Theorems about listener registration (C7) -/

/-- C7: `register()` populates a native event-table slot exactly for each
callback the caller supplied — every slot without a supplied callback
remains NULL — and delivering a synthetic event for an unpopulated
category invokes nothing (the dispatcher skips the NULL slot). -/
theorem register_slots (R : Type) (cbs : ListenerLocalCallbacks R) :
    ((register R cbs).info.isSome = cbs.info.isSome) ∧
    ((register R cbs).done.isSome = cbs.done.isSome) ∧
    ((register R cbs).error.isSome = cbs.error.isSome) ∧
    ((register R cbs).version = PW_VERSION_CORE_EVENTS) ∧
    (cbs.done = none →
      ∀ data id seq, deliver_done R (register R cbs) data id seq = none) ∧
    (cbs.info = none →
      ∀ data i, deliver_info R (register R cbs) data i = none) := by
  unfold register deliver_done deliver_info
  cases hi : cbs.info <;> cases hd : cbs.done <;> cases he : cbs.error <;>
    simp [hi, hd, he]

/-- Witness for `register_slots`: a bundle carrying only an `info`
callback populates exactly the `info` slot, and a synthetic `done` event
is a no-op. -/
theorem register_slots_witness :
    (register Nat ⟨some (fun i => i), none, none⟩).info.isSome = true ∧
    (register Nat ⟨some (fun i => i), none, none⟩).done.isSome = false ∧
    (register Nat ⟨some (fun i => i), none, none⟩).error.isSome = false ∧
    deliver_done Nat (register Nat ⟨some (fun i => i), none, none⟩)
      ⟨some (fun i => i), none, none⟩ 1 2 = none := by
  have h := register_slots Nat ⟨some (fun i => i), none, none⟩
  exact ⟨h.1, h.2.1, h.2.2.1, h.2.2.2.2.1 rfl _ 1 2⟩

/-! ### Theorems about handle teardown (C8) -/

theorem runOps_teardown (ret : Nat) :
    ∀ (ops : List HandleOp) (st : HandleState), st.strong = ops.length →
      0 < st.strong →
      runOps ret ops st =
        ({ strong := 0, clearCalls := st.clearCalls + 1, freed := true },
         [HandleEv.nativeClear, HandleEv.dealloc]) := by
  intro ops
  induction ops with
  | nil =>
    intro st hlen hpos
    rw [hlen] at hpos
    exact absurd hpos (by simp)
  | cons op ops ih =>
    intro st hlen hpos
    by_cases h1 : st.strong = 1
    · have hops : ops = [] := by
        have : ops.length = 0 := by
          simp only [List.length_cons] at hlen
          omega
        exact List.length_eq_zero.mp this
      subst hops
      cases op with
      | clear => simp [runOps, Handle.clear_op, h1]
      | drop => simp [runOps, Handle.drop_op, h1]
    · have h2 : 1 < st.strong := by omega
      have hlen2 : st.strong - 1 = ops.length := by
        simp only [List.length_cons] at hlen
        omega
      cases op with
      | clear =>
        have step : (Handle.clear_op ret st).1 = { st with strong := st.strong - 1 } := by
          simp [Handle.clear_op, h1]
        have htr : (Handle.clear_op ret st).2.1 = [] := by
          simp [Handle.clear_op, h1]
        have hrec := ih { st with strong := st.strong - 1 } hlen2 (by simp; omega)
        simp only [runOps, step, htr, hrec]
        simp
      | drop =>
        have step : Handle.drop_op st = ({ st with strong := st.strong - 1 }, []) := by
          simp [Handle.drop_op, h1]
        have hrec := ih { st with strong := st.strong - 1 } hlen2 (by simp; omega)
        simp only [runOps, step, hrec]
        simp

/-- C8: over any sequence of `clear`/`drop` operations consuming the `n`
handles sharing one `Rc<RawHandle>` (`n ≥ 1`), exactly one native `clear`
call is made and it immediately precedes the single deallocation (the
final trace is `[nativeClear, dealloc]`); a `clear()` while other strong
references are live performs no teardown and returns success, and an
explicit `clear()` on the last reference surfaces
`SpaResult::from_raw(ret).into_sync_result()` after performing the
teardown. -/
theorem handle_teardown_once (ret : Nat) (ops : List HandleOp) (n : Nat)
    (hn : ops.length = n) (hpos : 0 < n) :
    (runOps ret ops ⟨n, 0, false⟩).1 = ⟨0, 1, true⟩ ∧
    (runOps ret ops ⟨n, 0, false⟩).2 = [HandleEv.nativeClear, HandleEv.dealloc] ∧
    (∀ st : HandleState, 1 < st.strong →
      Handle.clear_op ret st =
        ({ st with strong := st.strong - 1 }, [], some (Except.ok 0))) ∧
    (∀ st : HandleState, st.strong = 1 →
      (Handle.clear_op ret st).2.2 = (SpaResult.from_raw ret).into_sync_result ∧
      (Handle.clear_op ret st).2.1 = [HandleEv.nativeClear, HandleEv.dealloc]) := by
  have hrun := runOps_teardown ret ops ⟨n, 0, false⟩ (by simpa using hn.symm) hpos
  refine ⟨?_, ?_, ?_, ?_⟩
  · rw [hrun]
  · rw [hrun]
  · intro st hst
    simp [Handle.clear_op]
    omega
  · intro st hst
    constructor <;> simp [Handle.clear_op, hst]

/-- Witness for `handle_teardown_once`: two handles, dropped then cleared,
with the native `clear` reporting the OS error `-5`. -/
theorem handle_teardown_once_witness :
    (runOps 4294967291 [HandleOp.drop, HandleOp.clear] ⟨2, 0, false⟩).1 = ⟨0, 1, true⟩ ∧
    (runOps 4294967291 [HandleOp.drop, HandleOp.clear] ⟨2, 0, false⟩).2 =
      [HandleEv.nativeClear, HandleEv.dealloc] ∧
    (∀ st : HandleState, 1 < st.strong →
      Handle.clear_op 4294967291 st =
        ({ st with strong := st.strong - 1 }, [], some (Except.ok 0))) ∧
    (∀ st : HandleState, st.strong = 1 →
      (Handle.clear_op 4294967291 st).2.2 =
        (SpaResult.from_raw 4294967291).into_sync_result ∧
      (Handle.clear_op 4294967291 st).2.1 =
        [HandleEv.nativeClear, HandleEv.dealloc]) :=
  handle_teardown_once 4294967291 [HandleOp.drop, HandleOp.clear] 2 rfl (by decide)

/-! ### Theorems about registry binding (C9) -/

/-- C9: `Registry::bind::<T>` fails with `WrongProxyType` whenever the
requested wrapper type does not match the advertised type of the global
object — and in that case no remote call is issued at all, so no
remote-allocated proxy can leak; when the types match (for every wrapper
in the supported set), the remote `bind` is issued with the type's client
version, a NULL proxy yields `NoMemory`, and a non-NULL proxy yields the
typed wrapper. -/
theorem registry_bind_cases (pv : pw_sys_versions)
    (remote : Nat → String → Nat → Option Nat)
    (k : ProxyKind) (object : GlobalObject) :
    (object.type_ ≠ k.type_ →
      Registry.bind pv remote k object =
        (some (Except.error Error.WrongProxyType), [])) ∧
    (object.type_ = k.type_ →
      ∃ version, ObjectType.client_version pv object.type_ = some version ∧
        (remote object.id (ObjectType.to_str object.type_) version = none →
          Registry.bind pv remote k object =
            (some (Except.error Error.NoMemory),
             [RemoteCall.bind object.id (ObjectType.to_str object.type_) version])) ∧
        (∀ p, remote object.id (ObjectType.to_str object.type_) version = some p →
          Registry.bind pv remote k object =
            (some (Except.ok ⟨k, ⟨p⟩⟩),
             [RemoteCall.bind object.id (ObjectType.to_str object.type_) version]))) := by
  constructor
  · intro hne
    unfold Registry.bind
    rw [if_pos hne]
  · intro heq
    have hcv : ObjectType.client_version pv object.type_ =
        some (pv.version_of object.type_) := by
      rw [heq]
      cases k <;> rfl
    refine ⟨pv.version_of object.type_, hcv, ?_, ?_⟩
    · intro hnull
      unfold Registry.bind
      rw [if_neg (fun h => h heq), hcv]
      simp [hnull]
    · intro p hp
      unfold Registry.bind
      rw [if_neg (fun h => h heq), hcv]
      simp [hp]

/-- Witness for `registry_bind_cases`: requesting a `Node` wrapper for an
advertised `Port` global fails with `WrongProxyType` and issues no remote
call; requesting it for an advertised `Node` global succeeds. -/
theorem registry_bind_cases_witness :
    Registry.bind ⟨fun _ => 3⟩ (fun _ _ _ => some 7) ProxyKind.Node
      ⟨1, 0, ObjectType.Port, 3, none⟩ =
      (some (Except.error Error.WrongProxyType), []) ∧
    Registry.bind ⟨fun _ => 3⟩ (fun _ _ _ => some 7) ProxyKind.Node
      ⟨1, 0, ObjectType.Node, 3, none⟩ =
      (some (Except.ok ⟨ProxyKind.Node, ⟨7⟩⟩),
       [RemoteCall.bind 1 "PipeWire:Interface:Node" 3]) := by
  constructor
  · exact (registry_bind_cases ⟨fun _ => 3⟩ (fun _ _ _ => some 7) ProxyKind.Node
      ⟨1, 0, ObjectType.Port, 3, none⟩).1 (by decide)
  · obtain ⟨v, hv, -, hsome⟩ :=
      (registry_bind_cases ⟨fun _ => 3⟩ (fun _ _ _ => some 7) ProxyKind.Node
        ⟨1, 0, ObjectType.Node, 3, none⟩).2 rfl
    have hv3 : v = 3 := by
      have hred : ObjectType.client_version ⟨fun _ => 3⟩ ObjectType.Node = some 3 := rfl
      rw [hred] at hv
      exact (Option.some.injEq _ _).mp hv.symm
    subst hv3
    exact hsome 7 rfl

end Spa
